import Mathlib

/-!
Shallow embedding of `src/creationalDesignPatterns/sigleton.py` and
`src/creationalDesignPatterns/builder.py`.

Python class-level mutable attributes (`_instance`, `__instance`) are made
explicit state that every operation threads through.  Object identity is
modelled by natural-number object ids; `raise Exception(msg)` is modelled
by an `Except` result carrying a `PyErr`, returned together with the state
as it is at the moment of the raise.
-/

namespace LLD

/-- A raised Python exception, identified by its message. -/
inductive PyErr where
  | exc (msg : String)
deriving DecidableEq, Repr

/-! ## EagerSingleton (sigleton.py lines 53-69) -/

namespace EagerSingleton

/-- The class-level `__instance = None` attribute.  The eager
initialization line of the module is commented out in the source, so the
module leaves this at its initial value. -/
def initialInstance : Option Nat := none

/-- `EagerSingleton.__init__`: raises when `__instance` is already set,
otherwise stores the freshly created object (id `self`) into `__instance`.
Returns the class state after the call together with the outcome. -/
def init (inst : Option Nat) (self : Nat) : Option Nat × Except PyErr Nat :=
  if inst.isSome then
    (inst, .error (.exc "This class is a singleton!"))
  else
    (some self, .ok self)

/-- `EagerSingleton.getInstance`: returns `__instance` as it is. -/
def getInstance (inst : Option Nat) : Option Nat :=
  inst

end EagerSingleton

/-! ## LazySingleton (sigleton.py lines 77-94) -/

namespace LazySingleton

/-- `LazySingleton.__init__`: unconditionally raises; the class state is
untouched. -/
def init (inst : Option Nat) : Option Nat × Except PyErr Nat :=
  (inst, .error (.exc "Use getInstance() to access the singleton"))

end LazySingleton

/-! ## BillPughSingleton (sigleton.py lines 200-216) -/

namespace BillPughSingleton

/-- `BillPughSingleton.__init__`: unconditionally raises; the helper
class state is untouched. -/
def init (inst : Option Nat) : Option Nat × Except PyErr Nat :=
  (inst, .error (.exc "Use getInstance()"))

end BillPughSingleton

/-! ## Holder state shared by the thread-safe variants

`_instance` is an `Option Nat` of object ids; `nextId` is the source of
fresh ids handed out by `__new__`. -/

structure Holder where
  inst : Option Nat
  nextId : Nat
deriving DecidableEq, Repr

/-- Events a `getInstance` call performs, in order, used to state the
double-checked locking protocol shape. -/
inductive Ev where
  | readFast
  | lockAcquire
  | readLocked
  | construct
  | assign
  | lockRelease
  | retRead
deriving DecidableEq, Repr

/-! ## SynchronizedSingleton (sigleton.py lines 146-160) -/

namespace SynchronizedSingleton

/-- `SynchronizedSingleton.__init__`: unconditionally raises. -/
def init (s : Holder) : Holder × Except PyErr Nat :=
  (s, .error (.exc "Use getInstance()"))

/-- `SynchronizedSingleton.getInstance` run sequentially, with the event
trace it performs: acquire the lock, check `_instance`, construct and
assign when it is `None`, release, then return (re-reading) `_instance`. -/
def getInstanceTr (s : Holder) : Holder × Option Nat × List Ev :=
  match s.inst with
  | none =>
      let s2 : Holder := { inst := some s.nextId, nextId := s.nextId + 1 }
      (s2, s2.inst,
        [.lockAcquire, .readLocked, .construct, .assign, .lockRelease, .retRead])
  | some _ =>
      (s, s.inst, [.lockAcquire, .readLocked, .lockRelease, .retRead])

/-- The state/result part of `getInstanceTr`. -/
def getInstance (s : Holder) : Holder × Option Nat :=
  ((getInstanceTr s).1, (getInstanceTr s).2.1)

end SynchronizedSingleton

/-! ## DoubleCheckedSingleton (sigleton.py lines 176-192) -/

namespace DoubleCheckedSingleton

/-- `DoubleCheckedSingleton.__init__`: unconditionally raises. -/
def init (s : Holder) : Holder × Except PyErr Nat :=
  (s, .error (.exc "Use getInstance()"))

/-- `DoubleCheckedSingleton.getInstance` run sequentially, with the event
trace: first check without the lock; when `_instance` is present the call
goes straight to the return statement (which re-reads `_instance`) with no
lock operation; when absent it acquires the lock, re-checks under the
lock, constructs and assigns only if still absent, releases, then
returns. -/
def getInstanceTr (s : Holder) : Holder × Option Nat × List Ev :=
  match s.inst with
  | some _ =>
      (s, s.inst, [.readFast, .retRead])
  | none =>
      match s.inst with
      | some _ =>
          (s, s.inst,
            [.readFast, .lockAcquire, .readLocked, .lockRelease, .retRead])
      | none =>
          let s2 : Holder := { inst := some s.nextId, nextId := s.nextId + 1 }
          (s2, s2.inst,
            [.readFast, .lockAcquire, .readLocked, .construct, .assign,
              .lockRelease, .retRead])

/-- The state/result part of `getInstanceTr`. -/
def getInstance (s : Holder) : Holder × Option Nat :=
  ((getInstanceTr s).1, (getInstanceTr s).2.1)

/-- `n` further `getInstance` calls applied to the holder state. -/
def callN : Nat → Holder → Holder
  | 0, s => s
  | n + 1, s => callN n (getInstance s).1

/-- `getInstance` with a fallible construction step `ctor` in place of
`DoubleCheckedSingleton.__new__`.  The middle `Bool` reports whether the
lock is still held when the call finishes: the `with` statement releases
it on every exit path, including the raising one, so it is always
`false`.  On a raise the exception propagates and `_instance` keeps the
value it had (no assignment happened). -/
def getInstanceF (ctor : Nat → Except PyErr Nat) (s : Holder) :
    Holder × Bool × Except PyErr (Option Nat) :=
  match s.inst with
  | some _ => (s, false, .ok s.inst)
  | none =>
      match s.inst with
      | some _ => (s, false, .ok s.inst)
      | none =>
          match ctor s.nextId with
          | .error e => (s, false, .error e)
          | .ok o =>
              let s2 : Holder := { inst := some o, nextId := s.nextId + 1 }
              (s2, false, .ok s2.inst)

end DoubleCheckedSingleton

/-! ## builder.py : Burger / BurgerBuilder

Python lists are mutable and aliased, so the `ingredients` list lives in
an explicit heap of list cells addressed by natural-number references.
`Burger.__init__` copies the builder's list (`builder.ingredients.copy()`)
into a fresh cell; the `add_*` methods mutate the builder's cell in
place. -/

structure Heap where
  cells : List (List String)
deriving DecidableEq, Repr

/-- Allocate a new list cell holding `v`; returns the new heap and the
reference to the cell. -/
def Heap.alloc (h : Heap) (v : List String) : Heap × Nat :=
  (⟨h.cells ++ [v]⟩, h.cells.length)

/-- Read the list stored in cell `r`. -/
def Heap.read (h : Heap) (r : Nat) : List String :=
  (h.cells.get? r).getD []

/-- Overwrite cell `r` with `v`. -/
def Heap.write (h : Heap) (r : Nat) (v : List String) : Heap :=
  ⟨h.cells.set r v⟩

/-- A `Burger` object: its `size` and the reference to its own
`ingredients` list cell. -/
structure Burger where
  size : String
  ingRef : Nat
deriving DecidableEq, Repr

/-- A `BurgerBuilder` object: its `size` and the reference to its
`ingredients` list cell. -/
structure BurgerBuilder where
  size : String
  ingRef : Nat
deriving DecidableEq, Repr

namespace BurgerBuilder

/-- `BurgerBuilder.__init__(size)`: rejects an empty size, otherwise
allocates a fresh empty `ingredients` list. -/
def mkBuilder (h : Heap) (size : String) :
    Heap × Except PyErr BurgerBuilder :=
  if size = "" then
    (h, .error (.exc "Burger size must be provided"))
  else
    let (h2, r) := h.alloc []
    (h2, .ok ⟨size, r⟩)

/-- `self.ingredients.append(item)`; all the `add_*` methods are this with
their fixed item, returning `self`. -/
def appendIng (h : Heap) (b : BurgerBuilder) (item : String) :
    Heap × BurgerBuilder :=
  (h.write b.ingRef (h.read b.ingRef ++ [item]), b)

/-- `add_cheese`. -/
def add_cheese (h : Heap) (b : BurgerBuilder) : Heap × BurgerBuilder :=
  appendIng h b "Cheese"

/-- `add_lettuce`. -/
def add_lettuce (h : Heap) (b : BurgerBuilder) : Heap × BurgerBuilder :=
  appendIng h b "Lettuce"

/-- `add_tomato`. -/
def add_tomato (h : Heap) (b : BurgerBuilder) : Heap × BurgerBuilder :=
  appendIng h b "Tomato"

/-- `add_pepperoni`. -/
def add_pepperoni (h : Heap) (b : BurgerBuilder) : Heap × BurgerBuilder :=
  appendIng h b "Pepperoni"

/-- `add_extra_patty`. -/
def add_extra_patty (h : Heap) (b : BurgerBuilder) : Heap × BurgerBuilder :=
  appendIng h b "Extra Patty"

end BurgerBuilder

namespace Burger

/-- `Burger.__init__(builder)`: takes the builder's size and a COPY of the
builder's ingredients list, allocated as the burger's own fresh cell. -/
def init (h : Heap) (b : BurgerBuilder) : Heap × Burger :=
  let (h2, r) := h.alloc (h.read b.ingRef)
  (h2, ⟨b.size, r⟩)

end Burger

/-- `BurgerBuilder.build`: `return Burger(self)`. -/
def BurgerBuilder.build (h : Heap) (b : BurgerBuilder) : Heap × Burger :=
  Burger.init h b

/-- One of the five `add_*` calls, for quantifying over arbitrary
sequences of them. -/
inductive AddOp where
  | cheese
  | lettuce
  | tomato
  | pepperoni
  | extraPatty
deriving DecidableEq, Repr

/-- Perform one `add_*` call on builder `b` (each returns `self`, so the
builder value is unchanged and only the heap moves). -/
def applyAdd (h : Heap) (b : BurgerBuilder) : AddOp → Heap
  | .cheese => (BurgerBuilder.add_cheese h b).1
  | .lettuce => (BurgerBuilder.add_lettuce h b).1
  | .tomato => (BurgerBuilder.add_tomato h b).1
  | .pepperoni => (BurgerBuilder.add_pepperoni h b).1
  | .extraPatty => (BurgerBuilder.add_extra_patty h b).1

/-- Perform a sequence of `add_*` calls on builder `b`. -/
def applyAdds (h : Heap) (b : BurgerBuilder) : List AddOp → Heap
  | [] => h
  | op :: ops => applyAdds (applyAdd h b op) b ops

/-! ## Concurrent model of `DoubleCheckedSingleton.getInstance`

Any number of threads each run the body of `getInstance` once, with steps
interleaved at instruction granularity.  The shared state carries
`_instance`, the lock (the id of the holding thread), a construction
counter incremented by the guarded assignment, the fresh-id source used by
`__new__`, and the set of object ids whose construction has completed
(`__new__` returns only after the object is fully built, and the
assignment to `_instance` happens strictly after `__new__` returns). -/

namespace DCL

structure GState where
  inst : Option Nat
  lock : Option Nat
  counter : Nat
  nextId : Nat
  built : List Nat
deriving DecidableEq, Repr

/-- The program counter of one thread running `getInstance` once.
`check1` is the unlocked read; `acquire` waits on the lock; `check2` is
the read under the lock; `alloc` starts `__new__` (picks a fresh id);
`doBuild o` finishes constructing object `o`; `doAssign o` stores `o`
into `_instance`; `release` leaves the `with` block; `retRead` is the
final `return DoubleCheckedSingleton._instance`, whose read value `v` the
terminal `done v` records. -/
inductive PC where
  | check1
  | acquire
  | check2
  | alloc
  | doBuild (o : Nat)
  | doAssign (o : Nat)
  | release
  | retRead
  | done (v : Option Nat)
deriving DecidableEq, Repr

/-- One instruction of thread `t`: relates shared state and the thread's
program counter before and after. -/
inductive TStep (t : Nat) : GState → PC → GState → PC → Prop where
  | check1Hit (g : GState) (o : Nat) (h : g.inst = some o) :
      TStep t g .check1 g .retRead
  | check1Miss (g : GState) (h : g.inst = none) :
      TStep t g .check1 g .acquire
  | lockAcq (g : GState) (h : g.lock = none) :
      TStep t g .acquire { g with lock := some t } .check2
  | check2Hit (g : GState) (o : Nat) (h : g.inst = some o) :
      TStep t g .check2 g .release
  | check2Miss (g : GState) (h : g.inst = none) :
      TStep t g .check2 g .alloc
  | allocStep (g : GState) :
      TStep t g .alloc { g with nextId := g.nextId + 1 } (.doBuild g.nextId)
  | buildStep (g : GState) (o : Nat) :
      TStep t g (.doBuild o) { g with built := o :: g.built } (.doAssign o)
  | assignStep (g : GState) (o : Nat) :
      TStep t g (.doAssign o)
        { g with inst := some o, counter := g.counter + 1 } .release
  | releaseStep (g : GState) :
      TStep t g .release { g with lock := none } .retRead
  | retStep (g : GState) :
      TStep t g .retRead g (.done g.inst)

/-- A configuration: the shared state and every thread's program
counter. -/
structure Config where
  g : GState
  threads : List PC
deriving DecidableEq, Repr

/-- Interleaving: some thread takes one instruction. -/
inductive Step : Config → Config → Prop where
  | mk (c : Config) (t : Nat) (ht : t < c.threads.length)
      (g' : GState) (pc' : PC)
      (hs : TStep t c.g (c.threads.get ⟨t, ht⟩) g' pc') :
      Step c ⟨g', c.threads.set t pc'⟩

/-- Zero or more interleaved instructions. -/
inductive Steps : Config → Config → Prop where
  | refl (c : Config) : Steps c c
  | tail {c c' c'' : Config} : Steps c c' → Step c' c'' → Steps c c''

/-- The initial configuration for `n` threads: `_instance` absent, lock
free, no construction performed, every thread about to do the unlocked
first check. -/
def initConfig (n : Nat) : Config :=
  ⟨⟨none, none, 0, 0, []⟩, List.replicate n .check1⟩

/-- Configurations reachable by `n` threads each calling `getInstance`
once. -/
def Reach (n : Nat) (c : Config) : Prop :=
  Steps (initConfig n) c

/-- Program counters at which the thread is inside the `with` block
(holds the lock). -/
def inCrit : PC → Bool
  | .check2 | .alloc | .doBuild _ | .doAssign _ | .release => true
  | _ => false

/-- Program counters strictly between the second check's `None` outcome
and the guarded assignment. -/
def preAssign : PC → Bool
  | .alloc | .doBuild _ | .doAssign _ => true
  | _ => false

/-- Program counters a thread only reaches once `_instance` is present. -/
def lateStage : PC → Bool
  | .release | .retRead => true
  | _ => false

/-- The inductive invariant of the interleaved system. -/
structure Inv (c : Config) : Prop where
  lockCrit : ∀ t (ht : t < c.threads.length),
    inCrit (c.threads.get ⟨t, ht⟩) = true → c.g.lock = some t
  critNone : ∀ t (ht : t < c.threads.length),
    preAssign (c.threads.get ⟨t, ht⟩) = true → c.g.inst = none
  counterNone : c.g.inst = none → c.g.counter = 0
  counterSome : ∀ o, c.g.inst = some o → c.g.counter = 1
  instBuilt : ∀ o, c.g.inst = some o → o ∈ c.g.built
  assignBuilt : ∀ t (ht : t < c.threads.length) o,
    c.threads.get ⟨t, ht⟩ = .doAssign o → o ∈ c.g.built
  lateSome : ∀ t (ht : t < c.threads.length),
    lateStage (c.threads.get ⟨t, ht⟩) = true → c.g.inst.isSome
  doneInst : ∀ t (ht : t < c.threads.length) v,
    c.threads.get ⟨t, ht⟩ = .done v → v = c.g.inst ∧ v.isSome

/-- Demonstration configuration: one thread has just performed the
guarded assignment and still holds the lock. -/
def cfgAssigned : Config :=
  ⟨⟨some 0, some 0, 1, 1, [0]⟩, [.release]⟩

/-- Demonstration configuration: one thread has finished its
`getInstance` call. -/
def cfgDone : Config :=
  ⟨⟨some 0, none, 1, 1, [0]⟩, [.done (some 0)]⟩

end DCL

end LLD

/-! # Theorems -/

namespace LLD

namespace DCL

theorem get_set_self {α : Type} (L : List α) (t : Nat) (p : α)
    (h : t < (L.set t p).length) :
    (L.set t p).get ⟨t, h⟩ = p := by
  simp [List.get_eq_getElem, List.getElem_set]

theorem get_set_other {α : Type} (L : List α) {t t2 : Nat} (p : α)
    (hne : t ≠ t2) (h2 : t2 < (L.set t p).length) :
    (L.set t p).get ⟨t2, h2⟩ = L.get ⟨t2, by simpa using h2⟩ := by
  simp [List.get_eq_getElem, List.getElem_set, hne]

theorem preAssign_inCrit {pc : PC} (h : preAssign pc = true) :
    inCrit pc = true := by
  cases pc <;> simp_all [preAssign, inCrit]

/-- Invariant transfer for a step that leaves every shared component the
per-thread reasoning depends on unchanged and only moves one thread's
program counter to `pc2`. -/
theorem inv_set_pc {c : Config} (hc : Inv c) (t : Nat)
    (ht : t < c.threads.length) (pc2 : PC) (g2 : GState)
    (hinst : g2.inst = c.g.inst) (hlock : g2.lock = c.g.lock)
    (hcnt : g2.counter = c.g.counter) (hbuilt : g2.built = c.g.built)
    (h1 : inCrit pc2 = true → c.g.lock = some t)
    (h2 : preAssign pc2 = true → c.g.inst = none)
    (h3 : lateStage pc2 = true → c.g.inst.isSome = true)
    (h4 : ∀ o, pc2 = .doAssign o → o ∈ c.g.built)
    (h5 : ∀ v, pc2 = .done v → v = c.g.inst ∧ v.isSome = true) :
    Inv ⟨g2, c.threads.set t pc2⟩ := by
  constructor
  · intro t2 ht2 hx
    rw [hlock]
    by_cases hq : t = t2
    · subst hq; rw [get_set_self] at hx; exact h1 hx
    · rw [get_set_other _ _ hq] at hx
      exact hc.lockCrit t2 _ hx
  · intro t2 ht2 hx
    rw [hinst]
    by_cases hq : t = t2
    · subst hq; rw [get_set_self] at hx; exact h2 hx
    · rw [get_set_other _ _ hq] at hx
      exact hc.critNone t2 _ hx
  · intro hn
    rw [hinst] at hn
    rw [hcnt]
    exact hc.counterNone hn
  · intro o ho
    rw [hinst] at ho
    rw [hcnt]
    exact hc.counterSome o ho
  · intro o ho
    rw [hinst] at ho
    rw [hbuilt]
    exact hc.instBuilt o ho
  · intro t2 ht2 o hx
    rw [hbuilt]
    by_cases hq : t = t2
    · subst hq; rw [get_set_self] at hx; exact h4 o hx
    · rw [get_set_other _ _ hq] at hx
      exact hc.assignBuilt t2 _ o hx
  · intro t2 ht2 hx
    rw [hinst]
    by_cases hq : t = t2
    · subst hq; rw [get_set_self] at hx; exact h3 hx
    · rw [get_set_other _ _ hq] at hx
      exact hc.lateSome t2 _ hx
  · intro t2 ht2 v hx
    rw [hinst]
    by_cases hq : t = t2
    · subst hq; rw [get_set_self] at hx; exact h5 v hx
    · rw [get_set_other _ _ hq] at hx
      exact hc.doneInst t2 _ v hx

theorem inv_init (n : Nat) : Inv (initConfig n) := by
  constructor
  · intro t ht hx
    simp [initConfig, List.get_eq_getElem, inCrit] at hx
  · intro t ht hx
    simp [initConfig, List.get_eq_getElem, preAssign] at hx
  · intro _; rfl
  · intro o ho; cases ho
  · intro o ho; cases ho
  · intro t ht o hx
    simp [initConfig, List.get_eq_getElem] at hx
  · intro t ht hx
    simp [initConfig, List.get_eq_getElem, lateStage] at hx
  · intro t ht v hx
    simp [initConfig, List.get_eq_getElem] at hx

theorem inv_step {c c' : Config} (hc : Inv c) (h : Step c c') : Inv c' := by
  obtain ⟨t, ht, g', pc', hs⟩ := h
  generalize hpc : c.threads.get ⟨t, ht⟩ = pcT at hs
  cases hs with
  | check1Hit o hio =>
      refine inv_set_pc hc t ht _ _ rfl rfl rfl rfl ?_ ?_ ?_ ?_ ?_
      · intro hx; cases hx
      · intro hx; cases hx
      · intro _; rw [hio]; rfl
      · intro o2 ho2; cases ho2
      · intro v hv; cases hv
  | check1Miss hin =>
      refine inv_set_pc hc t ht _ _ rfl rfl rfl rfl ?_ ?_ ?_ ?_ ?_
      · intro hx; cases hx
      · intro hx; cases hx
      · intro hx; cases hx
      · intro o2 ho2; cases ho2
      · intro v hv; cases hv
  | lockAcq hl =>
      constructor
      · intro t2 ht2 hx
        by_cases hq : t = t2
        · subst hq; rfl
        · rw [get_set_other _ _ hq] at hx
          have := hc.lockCrit t2 (by simpa using ht2) hx
          rw [hl] at this; cases this
      · intro t2 ht2 hx
        by_cases hq : t = t2
        · subst hq; rw [get_set_self] at hx; cases hx
        · rw [get_set_other _ _ hq] at hx
          exact hc.critNone t2 _ hx
      · exact hc.counterNone
      · exact hc.counterSome
      · exact hc.instBuilt
      · intro t2 ht2 o hx
        by_cases hq : t = t2
        · subst hq; rw [get_set_self] at hx; cases hx
        · rw [get_set_other _ _ hq] at hx
          exact hc.assignBuilt t2 _ o hx
      · intro t2 ht2 hx
        by_cases hq : t = t2
        · subst hq; rw [get_set_self] at hx; cases hx
        · rw [get_set_other _ _ hq] at hx
          exact hc.lateSome t2 _ hx
      · intro t2 ht2 v hx
        by_cases hq : t = t2
        · subst hq; rw [get_set_self] at hx; cases hx
        · rw [get_set_other _ _ hq] at hx
          exact hc.doneInst t2 _ v hx
  | check2Hit o hio =>
      refine inv_set_pc hc t ht _ _ rfl rfl rfl rfl ?_ ?_ ?_ ?_ ?_
      · intro _
        exact hc.lockCrit t ht (by rw [hpc]; rfl)
      · intro hx; cases hx
      · intro _; rw [hio]; rfl
      · intro o2 ho2; cases ho2
      · intro v hv; cases hv
  | check2Miss hin =>
      refine inv_set_pc hc t ht _ _ rfl rfl rfl rfl ?_ ?_ ?_ ?_ ?_
      · intro _
        exact hc.lockCrit t ht (by rw [hpc]; rfl)
      · intro _; exact hin
      · intro hx; cases hx
      · intro o2 ho2; cases ho2
      · intro v hv; cases hv
  | allocStep =>
      refine inv_set_pc hc t ht _ _ rfl rfl rfl rfl ?_ ?_ ?_ ?_ ?_
      · intro _
        exact hc.lockCrit t ht (by rw [hpc]; rfl)
      · intro _
        exact hc.critNone t ht (by rw [hpc]; rfl)
      · intro hx; cases hx
      · intro o2 ho2; cases ho2
      · intro v hv; cases hv
  | buildStep o =>
      constructor
      · intro t2 ht2 hx
        by_cases hq : t = t2
        · subst hq
          exact hc.lockCrit t ht (by rw [hpc]; rfl)
        · rw [get_set_other _ _ hq] at hx
          exact hc.lockCrit t2 _ hx
      · intro t2 ht2 hx
        by_cases hq : t = t2
        · subst hq
          exact hc.critNone t ht (by rw [hpc]; rfl)
        · rw [get_set_other _ _ hq] at hx
          exact hc.critNone t2 _ hx
      · exact hc.counterNone
      · exact hc.counterSome
      · intro o2 ho2
        exact List.mem_cons_of_mem _ (hc.instBuilt o2 ho2)
      · intro t2 ht2 o2 hx
        by_cases hq : t = t2
        · subst hq; rw [get_set_self] at hx
          cases hx
          exact List.mem_cons_self _ _
        · rw [get_set_other _ _ hq] at hx
          exact List.mem_cons_of_mem _ (hc.assignBuilt t2 _ o2 hx)
      · intro t2 ht2 hx
        by_cases hq : t = t2
        · subst hq; rw [get_set_self] at hx; cases hx
        · rw [get_set_other _ _ hq] at hx
          exact hc.lateSome t2 _ hx
      · intro t2 ht2 v hx
        by_cases hq : t = t2
        · subst hq; rw [get_set_self] at hx; cases hx
        · rw [get_set_other _ _ hq] at hx
          exact hc.doneInst t2 _ v hx
  | assignStep o =>
      have hnone : c.g.inst = none := hc.critNone t ht (by rw [hpc]; rfl)
      have hcnt0 : c.g.counter = 0 := hc.counterNone hnone
      have hlk : c.g.lock = some t := hc.lockCrit t ht (by rw [hpc]; rfl)
      constructor
      · intro t2 ht2 hx
        by_cases hq : t = t2
        · subst hq; exact hlk
        · rw [get_set_other _ _ hq] at hx
          exact hc.lockCrit t2 _ hx
      · intro t2 ht2 hx
        by_cases hq : t = t2
        · subst hq; rw [get_set_self] at hx; cases hx
        · rw [get_set_other _ _ hq] at hx
          have := hc.lockCrit t2 (by simpa using ht2) (preAssign_inCrit hx)
          rw [hlk] at this
          cases this
          exact absurd rfl hq
      · intro hn; cases hn
      · intro o2 _
        show c.g.counter + 1 = 1
        rw [hcnt0]
      · intro o2 ho2
        have : o = o2 := by
          have := ho2
          simpa using this
        subst this
        exact hc.assignBuilt t ht o hpc
      · intro t2 ht2 o2 hx
        by_cases hq : t = t2
        · subst hq; rw [get_set_self] at hx; cases hx
        · rw [get_set_other _ _ hq] at hx
          exact hc.assignBuilt t2 _ o2 hx
      · intro t2 ht2 hx
        rfl
      · intro t2 ht2 v hx
        by_cases hq : t = t2
        · subst hq; rw [get_set_self] at hx; cases hx
        · rw [get_set_other _ _ hq] at hx
          have hd := hc.doneInst t2 (by simpa using ht2) v hx
          rw [hnone] at hd
          rcases hd with ⟨hv, hvs⟩
          subst hv
          cases hvs
  | releaseStep =>
      have hlk : c.g.lock = some t := hc.lockCrit t ht (by rw [hpc]; rfl)
      have hsome : c.g.inst.isSome = true := hc.lateSome t ht (by rw [hpc]; rfl)
      constructor
      · intro t2 ht2 hx
        by_cases hq : t = t2
        · subst hq; rw [get_set_self] at hx; cases hx
        · rw [get_set_other _ _ hq] at hx
          have := hc.lockCrit t2 (by simpa using ht2) hx
          rw [hlk] at this
          cases this
          exact absurd rfl hq
      · intro t2 ht2 hx
        by_cases hq : t = t2
        · subst hq; rw [get_set_self] at hx; cases hx
        · rw [get_set_other _ _ hq] at hx
          exact hc.critNone t2 _ hx
      · exact hc.counterNone
      · exact hc.counterSome
      · exact hc.instBuilt
      · intro t2 ht2 o hx
        by_cases hq : t = t2
        · subst hq; rw [get_set_self] at hx; cases hx
        · rw [get_set_other _ _ hq] at hx
          exact hc.assignBuilt t2 _ o hx
      · intro t2 ht2 hx
        exact hsome
      · intro t2 ht2 v hx
        by_cases hq : t = t2
        · subst hq; rw [get_set_self] at hx; cases hx
        · rw [get_set_other _ _ hq] at hx
          exact hc.doneInst t2 _ v hx
  | retStep =>
      refine inv_set_pc hc t ht _ _ rfl rfl rfl rfl ?_ ?_ ?_ ?_ ?_
      · intro hx; cases hx
      · intro hx; cases hx
      · intro hx; cases hx
      · intro o2 ho2; cases ho2
      · intro v hv
        cases hv
        exact ⟨rfl, hc.lateSome t ht (by rw [hpc]; rfl)⟩

theorem inv_steps {c c' : Config} (hc : Inv c) (h : Steps c c') : Inv c' := by
  induction h with
  | refl => exact hc
  | tail _ hstep ih => exact inv_step ih hstep

theorem inv_reach {n : Nat} {c : Config} (h : Reach n c) : Inv c :=
  inv_steps (inv_init n) h

/-- One interleaved instruction never changes a present `_instance`. -/
theorem inst_step_stable {c c' : Config} (hc : Inv c) (h : Step c c')
    (o : Nat) (hi : c.g.inst = some o) : c'.g.inst = some o := by
  obtain ⟨t, ht, g', pc', hs⟩ := h
  generalize hpc : c.threads.get ⟨t, ht⟩ = pcT at hs
  cases hs with
  | check1Hit o2 hio => exact hi
  | check1Miss hin => exact hi
  | lockAcq hl => exact hi
  | check2Hit o2 hio => exact hi
  | check2Miss hin => exact hi
  | allocStep => exact hi
  | buildStep o2 => exact hi
  | assignStep o2 =>
      have hnone : c.g.inst = none := hc.critNone t ht (by rw [hpc]; rfl)
      rw [hnone] at hi
      cases hi
  | releaseStep => exact hi
  | retStep => exact hi

/-- Any number of further interleaved instructions never change a present
`_instance`. -/
theorem inst_steps_stable {c c' : Config} (hc : Inv c) (h : Steps c c')
    (o : Nat) (hi : c.g.inst = some o) : c'.g.inst = some o := by
  induction h with
  | refl => exact hi
  | tail hpre hstep ih =>
      exact inst_step_stable (inv_steps hc hpre) hstep o ih

theorem steps_trans {a b c : Config} (h1 : Steps a b) (h2 : Steps b c) :
    Steps a c := by
  induction h2 with
  | refl => exact h1
  | tail _ hs ih => exact Steps.tail ih hs

/-- A single thread can run `getInstance` from the initial configuration
up to the point just after the guarded assignment. -/
theorem steps_demo_assigned : Steps (initConfig 1) cfgAssigned := by
  have h0 := Steps.refl (initConfig 1)
  have h1 := Steps.tail h0
    (Step.mk (initConfig 1) 0 (by decide) _ _ (TStep.check1Miss _ rfl))
  have h2 := Steps.tail h1
    (Step.mk _ 0 (by decide) _ _ (TStep.lockAcq _ rfl))
  have h3 := Steps.tail h2
    (Step.mk _ 0 (by decide) _ _ (TStep.check2Miss _ rfl))
  have h4 := Steps.tail h3
    (Step.mk _ 0 (by decide) _ _ (TStep.allocStep _))
  have h5 := Steps.tail h4
    (Step.mk _ 0 (by decide) _ _ (TStep.buildStep _ 0))
  have h6 := Steps.tail h5
    (Step.mk _ 0 (by decide) _ _ (TStep.assignStep _ 0))
  exact h6

/-- The same thread can then release the lock and return. -/
theorem steps_assigned_done : Steps cfgAssigned cfgDone := by
  have h0 := Steps.refl cfgAssigned
  have h1 := Steps.tail h0
    (Step.mk cfgAssigned 0 (by decide) _ _ (TStep.releaseStep _))
  have h2 := Steps.tail h1
    (Step.mk _ 0 (by decide) _ _ (TStep.retStep _))
  exact h2

theorem steps_demo_done : Steps (initConfig 1) cfgDone :=
  steps_trans steps_demo_assigned steps_assigned_done

/-- C1: in every configuration reachable by any interleaving of
`getInstance` calls, the guarded construction step has executed at most
once (the construction counter incremented inside the guarded assignment
is at most 1), and exactly once as soon as any call has completed. -/
theorem dcl_construct_at_most_once (n : Nat) (c : Config) (h : Reach n c) :
    c.g.counter ≤ 1
    ∧ ∀ t (ht : t < c.threads.length) v,
        c.threads.get ⟨t, ht⟩ = PC.done v → c.g.counter = 1 := by
  have hinv := inv_reach h
  constructor
  · cases hi : c.g.inst with
    | none => rw [hinv.counterNone hi]; exact Nat.zero_le 1
    | some o => rw [hinv.counterSome o hi]
  · intro t ht v hdone
    rcases hinv.doneInst t ht v hdone with ⟨hv, hs⟩
    rcases Option.isSome_iff_exists.mp hs with ⟨o, ho⟩
    exact hinv.counterSome o (by rw [← hv]; exact ho)

theorem dcl_construct_at_most_once_witness :
    cfgDone.g.counter ≤ 1 ∧ cfgDone.g.counter = 1 :=
  ⟨(dcl_construct_at_most_once 1 cfgDone steps_demo_done).1,
   (dcl_construct_at_most_once 1 cfgDone steps_demo_done).2 0 (by decide)
     (some 0) rfl⟩

/-- C3: once `_instance` has become present in some reachable
configuration, no later step of any interleaving reassigns it to a
different object or reverts it to absent. -/
theorem dcl_instance_never_reverts (n : Nat) (c c2 : Config) (o : Nat)
    (hr : Reach n c) (hi : c.g.inst = some o) (hs : Steps c c2) :
    c2.g.inst = some o :=
  inst_steps_stable (inv_reach hr) hs o hi

theorem dcl_instance_never_reverts_witness : cfgDone.g.inst = some 0 :=
  dcl_instance_never_reverts 1 cfgAssigned cfgDone 0 steps_demo_assigned rfl
    steps_assigned_done

/-- C7: under any interleaving of any number of concurrent `getInstance`
callers at instruction granularity, at most one construction ever
happens, all completed callers returned the same present value, and any
present `_instance` (hence any returned value) refers to a
fully-constructed object. -/
theorem dcl_concurrent_correctness (n : Nat) (c : Config) (h : Reach n c) :
    c.g.counter ≤ 1
    ∧ (∀ t (ht : t < c.threads.length) t2 (ht2 : t2 < c.threads.length)
          v v2, c.threads.get ⟨t, ht⟩ = PC.done v →
          c.threads.get ⟨t2, ht2⟩ = PC.done v2 → v = v2)
    ∧ (∀ o, c.g.inst = some o → o ∈ c.g.built)
    ∧ (∀ t (ht : t < c.threads.length) v,
          c.threads.get ⟨t, ht⟩ = PC.done v →
          ∃ o, v = some o ∧ o ∈ c.g.built) := by
  have hinv := inv_reach h
  refine ⟨?_, ?_, ?_, ?_⟩
  · cases hi : c.g.inst with
    | none => rw [hinv.counterNone hi]; exact Nat.zero_le 1
    | some o => rw [hinv.counterSome o hi]
  · intro t ht t2 ht2 v v2 h1 h2
    rcases hinv.doneInst t ht v h1 with ⟨hv, _⟩
    rcases hinv.doneInst t2 ht2 v2 h2 with ⟨hv2, _⟩
    rw [hv, hv2]
  · exact hinv.instBuilt
  · intro t ht v hdone
    rcases hinv.doneInst t ht v hdone with ⟨hv, hs⟩
    rcases Option.isSome_iff_exists.mp hs with ⟨o, ho⟩
    refine ⟨o, ho, ?_⟩
    exact hinv.instBuilt o (by rw [← hv]; exact ho)

theorem dcl_concurrent_correctness_witness :
    cfgDone.g.counter ≤ 1 ∧ (0 : Nat) ∈ cfgDone.g.built :=
  ⟨(dcl_concurrent_correctness 1 cfgDone steps_demo_done).1,
   (dcl_concurrent_correctness 1 cfgDone steps_demo_done).2.2.1 0 rfl⟩

end DCL

namespace DoubleCheckedSingleton

theorem callN_of_some (k : Nat) (i n : Nat) :
    callN k ⟨some i, n⟩ = ⟨some i, n⟩ := by
  induction k with
  | zero => rfl
  | succ k ih => simpa [callN, getInstance, getInstanceTr] using ih

/-- C2: for any starting holder state, the first `getInstance` call
returns a present instance A, and after any number of further calls the
next call still returns exactly A. -/
theorem dc_getInstance_successive_calls (s : Holder) (k : Nat) :
    (getInstance (callN k (getInstance s).1)).2 = (getInstance s).2
    ∧ ((getInstance s).2).isSome = true := by
  obtain ⟨i, n⟩ := s
  cases i with
  | none =>
      simp [getInstance, getInstanceTr, callN_of_some]
  | some o =>
      simp [getInstance, getInstanceTr, callN_of_some]

/-- C4: `getInstance` follows the double-checked locking protocol: with
`_instance` present, the call performs only the unlocked read and the
return re-read, with no lock operation and no construction; with it
absent, it performs the unlocked read, the acquisition, the second read
under the lock, the construction, the assignment, the release, and the
return, in that order. -/
theorem dc_getInstance_protocol (s : Holder) :
    (∀ o, s.inst = some o →
      getInstanceTr s = (s, some o, [Ev.readFast, Ev.retRead]))
    ∧ (s.inst = none →
      getInstanceTr s =
        ({ inst := some s.nextId, nextId := s.nextId + 1 }, some s.nextId,
          [Ev.readFast, Ev.lockAcquire, Ev.readLocked, Ev.construct,
            Ev.assign, Ev.lockRelease, Ev.retRead]))
    ∧ (∀ o, s.inst = some o →
      Ev.lockAcquire ∉ (getInstanceTr s).2.2
        ∧ Ev.lockRelease ∉ (getInstanceTr s).2.2
        ∧ Ev.construct ∉ (getInstanceTr s).2.2) := by
  obtain ⟨i, n⟩ := s
  cases i with
  | none =>
      refine ⟨?_, ?_, ?_⟩
      · intro o ho; cases ho
      · intro _; rfl
      · intro o ho; cases ho
  | some o2 =>
      refine ⟨?_, ?_, ?_⟩
      · intro o ho
        cases ho
        rfl
      · intro ho; cases ho
      · intro o ho
        refine ⟨?_, ?_, ?_⟩ <;> · intro hmem; simp [getInstanceTr] at hmem

theorem dc_getInstance_protocol_witness :
    getInstanceTr ⟨none, 0⟩
      = (⟨some 0, 1⟩, some 0,
          [Ev.readFast, Ev.lockAcquire, Ev.readLocked, Ev.construct,
            Ev.assign, Ev.lockRelease, Ev.retRead])
    ∧ getInstanceTr ⟨some 7, 9⟩
        = (⟨some 7, 9⟩, some 7, [Ev.readFast, Ev.retRead]) :=
  ⟨(dc_getInstance_protocol ⟨none, 0⟩).2.1 rfl,
   (dc_getInstance_protocol ⟨some 7, 9⟩).1 7 rfl⟩

/-- C5: when the construction step raises, the lock is nevertheless
released, the exception propagates to the caller, and `_instance` stays
absent, so a subsequent call whose construction succeeds constructs and
returns a valid instance. -/
theorem dc_getInstance_failure (ctor ctor2 : Nat → Except PyErr Nat)
    (s : Holder) (e : PyErr) (o : Nat)
    (hnone : s.inst = none) (hfail : ctor s.nextId = .error e)
    (hok : ctor2 s.nextId = .ok o) :
    getInstanceF ctor s = (s, false, .error e)
    ∧ getInstanceF ctor2 s
        = ({ inst := some o, nextId := s.nextId + 1 }, false, .ok (some o)) := by
  obtain ⟨i, n⟩ := s
  cases i with
  | some o2 => cases hnone
  | none =>
      constructor
      · simp [getInstanceF, hfail]
      · simp [getInstanceF, hok]

theorem dc_getInstance_failure_witness :
    getInstanceF (fun _ => .error (.exc "boom")) ⟨none, 0⟩
        = (⟨none, 0⟩, false, .error (.exc "boom"))
    ∧ getInstanceF (fun k => .ok k) ⟨none, 0⟩
        = (⟨some 0, 1⟩, false, .ok (some 0)) :=
  dc_getInstance_failure (fun _ => .error (.exc "boom")) (fun k => .ok k)
    ⟨none, 0⟩ (.exc "boom") 0 rfl rfl rfl

end DoubleCheckedSingleton

/-- C6: every direct constructor invocation of the lazy singleton classes
raises and leaves the holder state unchanged; `EagerSingleton.__init__`
succeeds the first time and raises on every attempt made while an
instance is already stored (the second and subsequent attempts). -/
theorem singleton_init_raises :
    (∀ s : Holder, DoubleCheckedSingleton.init s
        = (s, .error (.exc "Use getInstance()")))
    ∧ (∀ s : Holder, SynchronizedSingleton.init s
        = (s, .error (.exc "Use getInstance()")))
    ∧ (∀ i : Option Nat, LazySingleton.init i
        = (i, .error (.exc "Use getInstance() to access the singleton")))
    ∧ (∀ i : Option Nat, BillPughSingleton.init i
        = (i, .error (.exc "Use getInstance()")))
    ∧ (∀ (i : Option Nat) (self : Nat), i.isSome = true →
        EagerSingleton.init i self
          = (i, .error (.exc "This class is a singleton!")))
    ∧ (∀ self self2 : Nat,
        EagerSingleton.init none self = (some self, .ok self)
        ∧ EagerSingleton.init (EagerSingleton.init none self).1 self2
            = (some self, .error (.exc "This class is a singleton!"))) := by
  refine ⟨fun s => rfl, fun s => rfl, fun i => rfl, fun i => rfl, ?_, ?_⟩
  · intro i self hi
    simp [EagerSingleton.init, hi]
  · intro self self2
    constructor
    · rfl
    · simp [EagerSingleton.init]

theorem singleton_init_raises_witness :
    EagerSingleton.init (some 4) 5
      = (some 4, .error (.exc "This class is a singleton!")) :=
  singleton_init_raises.2.2.2.2.1 (some 4) 5 rfl

/-- C8: run sequentially from the same holder state, the synchronized
accessor and the double-checked accessor are observably equivalent: same
final state and same returned value; both construct exactly when the
instance is absent, and both return the stored instance of their final
state. -/
theorem sync_dc_equivalent (s : Holder) :
    SynchronizedSingleton.getInstance s = DoubleCheckedSingleton.getInstance s
    ∧ (Ev.construct ∈ (SynchronizedSingleton.getInstanceTr s).2.2
        ↔ s.inst = none)
    ∧ (Ev.construct ∈ (DoubleCheckedSingleton.getInstanceTr s).2.2
        ↔ s.inst = none)
    ∧ (SynchronizedSingleton.getInstance s).2
        = ((SynchronizedSingleton.getInstance s).1).inst
    ∧ (DoubleCheckedSingleton.getInstance s).2
        = ((DoubleCheckedSingleton.getInstance s).1).inst := by
  obtain ⟨i, n⟩ := s
  cases i with
  | none =>
      refine ⟨rfl, ?_, ?_, rfl, rfl⟩
      · simp [SynchronizedSingleton.getInstanceTr]
      · simp [DoubleCheckedSingleton.getInstanceTr]
  | some o =>
      refine ⟨rfl, ?_, ?_, rfl, rfl⟩
      · simp [SynchronizedSingleton.getInstanceTr]
      · simp [DoubleCheckedSingleton.getInstanceTr]

/-- C9: with the eager initialization line commented out, the class-level
`__instance` is still its initial `None`, and `EagerSingleton.getInstance`
then returns `None` rather than an instance. -/
theorem eager_getInstance_absent :
    EagerSingleton.initialInstance = none
    ∧ ∀ i : Option Nat, i = none → EagerSingleton.getInstance i = none :=
  ⟨rfl, fun _ h => h⟩

theorem eager_getInstance_absent_witness :
    EagerSingleton.getInstance EagerSingleton.initialInstance = none :=
  eager_getInstance_absent.2 EagerSingleton.initialInstance rfl

theorem appendIng_read_ne (h : Heap) (b : BurgerBuilder) (item : String)
    (r : Nat) (hne : b.ingRef ≠ r) :
    ((BurgerBuilder.appendIng h b item).1).read r = h.read r := by
  simp [BurgerBuilder.appendIng, Heap.write, Heap.read,
    List.getElem?_set_ne hne]

theorem applyAdd_read_ne (h : Heap) (b : BurgerBuilder) (op : AddOp)
    (r : Nat) (hne : b.ingRef ≠ r) :
    (applyAdd h b op).read r = h.read r := by
  cases op <;> exact appendIng_read_ne h b _ r hne

theorem applyAdds_read_ne (ops : List AddOp) (h : Heap) (b : BurgerBuilder)
    (r : Nat) (hne : b.ingRef ≠ r) :
    (applyAdds h b ops).read r = h.read r := by
  induction ops generalizing h with
  | nil => rfl
  | cons op ops ih =>
      rw [applyAdds, ih (applyAdd h b op), applyAdd_read_ne h b op r hne]

/-- C10: a burger is a snapshot of its builder at build time:
`Burger.__init__` copies the ingredients list into the burger's own fresh
cell, so the burger's cell holds the builder's ingredients as of the
build, its size is the builder's size, and no sequence of later `add_*`
calls on the builder changes what the burger's cell holds. -/
theorem burger_snapshot (h : Heap) (b : BurgerBuilder) (ops : List AddOp)
    (hv : b.ingRef < h.cells.length) :
    ((BurgerBuilder.build h b).1).read ((BurgerBuilder.build h b).2).ingRef
        = h.read b.ingRef
    ∧ ((BurgerBuilder.build h b).2).size = b.size
    ∧ (applyAdds (BurgerBuilder.build h b).1 b ops).read
          ((BurgerBuilder.build h b).2).ingRef
        = h.read b.ingRef := by
  have href : ((BurgerBuilder.build h b).2).ingRef = h.cells.length := rfl
  have hcopy :
      ((BurgerBuilder.build h b).1).read ((BurgerBuilder.build h b).2).ingRef
        = h.read b.ingRef := by
    rw [href]
    show ((⟨h.cells ++ [h.read b.ingRef]⟩ : Heap).read h.cells.length)
      = h.read b.ingRef
    simp [Heap.read, List.getElem?_concat_length]
  refine ⟨hcopy, rfl, ?_⟩
  rw [applyAdds_read_ne ops (BurgerBuilder.build h b).1 b
    ((BurgerBuilder.build h b).2).ingRef
    (by rw [href]; exact Nat.ne_of_lt hv)]
  exact hcopy

theorem burger_snapshot_witness :
    ((BurgerBuilder.build ⟨[["Cheese"]]⟩ ⟨"Medium", 0⟩).1).read
        ((BurgerBuilder.build ⟨[["Cheese"]]⟩ ⟨"Medium", 0⟩).2).ingRef
      = Heap.read ⟨[["Cheese"]]⟩ 0
    ∧ (applyAdds (BurgerBuilder.build ⟨[["Cheese"]]⟩ ⟨"Medium", 0⟩).1
          ⟨"Medium", 0⟩ [AddOp.lettuce]).read
          ((BurgerBuilder.build ⟨[["Cheese"]]⟩ ⟨"Medium", 0⟩).2).ingRef
        = Heap.read ⟨[["Cheese"]]⟩ 0 :=
  ⟨(burger_snapshot ⟨[["Cheese"]]⟩ ⟨"Medium", 0⟩ [AddOp.lettuce]
      (by decide)).1,
   (burger_snapshot ⟨[["Cheese"]]⟩ ⟨"Medium", 0⟩ [AddOp.lettuce]
      (by decide)).2.2⟩

end LLD
